import Mathlib

/-!
Shallow embedding of `run.py` from the talkingdata-adtracking-fraud-detection
pipeline, together with theorems checking the natural-language specification
against it.  Each definition is a direct transcription of a function or code
block of `run.py`; the theorems settle the spec's claims about them.
-/

namespace AdTracking

/-! ### The feature registry (`feature_map`, run.py lines 18-34) -/

/-- One entry of the `feature_map` dictionary: either one of the plain feature
classes imported from `features.basic`, or the result of one of the
parameterized generator calls from `features.time_series_click`
(`generate_future_click_count(w)` and friends), with its window argument. -/
inductive FeatureCtor where
  | Ip
  | App
  | Os
  | Device
  | Channel
  | ClickHour
  | BasicCount
  | generate_future_click_count (window : Nat)
  | generate_past_click_count (window : Nat)
  | generate_future_click_ratio (window : Nat)
  | generate_past_click_ratio (window : Nat)
deriving DecidableEq

/-- Direction of a windowed time-series feature generator. -/
inductive Direction where
  | future
  | past
deriving DecidableEq

/-- The window direction a `FeatureCtor` aggregates over (`none` for the
non-windowed basic features). -/
def ctorDirection : FeatureCtor → Option Direction
  | .generate_future_click_count _ => some .future
  | .generate_future_click_ratio _ => some .future
  | .generate_past_click_count _ => some .past
  | .generate_past_click_ratio _ => some .past
  | _ => none

/-- Transcription of the `feature_map` dictionary of run.py (lines 18-34),
entry for entry: feature name to the constructor/generator call bound to it. -/
def feature_map : String → Option FeatureCtor
  | "ip" => some .Ip
  | "app" => some .App
  | "os" => some .Os
  | "device" => some .Device
  | "channel" => some .Channel
  | "hour" => some .ClickHour
  | "count" => some .BasicCount
  | "future_click_count_10" => some (.generate_future_click_count 600)
  | "past_click_count_10" => some (.generate_past_click_count 600)
  | "future_click_count_80" => some (.generate_future_click_count 4800)
  | "past_click_count_80" => some (.generate_past_click_count 4800)
  | "future_click_ratio_10" => some (.generate_future_click_ratio 600)
  | "past_click_ratio_10" => some (.generate_future_click_ratio 600)
  | "future_click_ratio_80" => some (.generate_future_click_ratio 4800)
  | "past_click_ratio_80" => some (.generate_future_click_ratio 4800)
  | _ => none

/-- The `models` dictionary of run.py (lines 36-38): its only key. -/
def models : List String := ["lightgbm"]

/-! ### Labeled rows and `negative_down_sampling` (run.py lines 131-136) -/

/-- One row of a labeled dataset: `is_attributed` is the binary target column
(`target_variable` in run.py), `idx` stands for the rest of the row's payload
and keeps distinct rows distinguishable. -/
structure Row where
  idx : Nat
  is_attributed : Bool
deriving DecidableEq

/-- Errors the down-sampling code can raise: Python's `ZeroDivisionError`
(from `float / 0.0`) and pandas' `ValueError` (from `sample(frac=f)` with
`f > 1` and `replace=False`). -/
inductive PdError where
  | zeroDivision
  | valueError
deriving DecidableEq

/-- Number of rows of `data` whose `is_attributed` label is set
(`len(data[data[target_variable] == 1])`). -/
def posCount (data : List Row) : Nat :=
  (data.filter (fun r => r.is_attributed)).length

/-- Number of rows of `data` whose `is_attributed` label is clear
(`len(data[data[target_variable] == 0])`). -/
def negCount (data : List Row) : Nat :=
  (data.filter (fun r => !r.is_attributed)).length

/-- The `positive_ratio` computed in `negative_down_sampling`:
`float(len(positive_data)) / len(data)`. -/
def posFrac (data : List Row) : ℚ :=
  (posCount data : ℚ) / (data.length : ℚ)

/-- Model of pandas `DataFrame.sample(frac=f, random_state=s)` without
replacement: pandas raises `ValueError` when `frac > 1`, and otherwise draws
`round(frac * n)` of the `n` rows, without replacement, deterministically from
the seed.  The seeded draw is modelled as a seed-determined rotation of the
row list followed by taking the required prefix; it keeps the two properties
the pipeline relies on: the sample is a subset of the input of the rounded
size, and it is a fixed function of `(f, s, xs)`. -/
def sampleFrac (f : ℚ) (random_state : Nat) (xs : List α) : Except PdError (List α) :=
  if 1 < f then .error .valueError
  else .ok ((xs.rotate (random_state % (xs.length + 1))).take
      (Int.toNat ⌊f * (xs.length : ℚ) + 1/2⌋))

/-- Transcription of `negative_down_sampling(data, random_state)` (run.py
lines 131-136): split off the positive rows, compute `positive_ratio`, sample
the negative rows with `frac = positive_ratio / (1 - positive_ratio)`, and
concatenate.  `data` empty or all-positive makes the Python code divide a
float by zero (`ZeroDivisionError`), modelled as `.error .zeroDivision`. -/
def negative_down_sampling (data : List Row) (random_state : Nat) :
    Except PdError (List Row) :=
  if data.length = 0 then .error .zeroDivision
  else
    let positive_data := data.filter (fun r => r.is_attributed)
    if posFrac data = 1 then .error .zeroDivision
    else
      let negative_data := data.filter (fun r => !r.is_attributed)
      match sampleFrac (posFrac data / (1 - posFrac data)) random_state negative_data with
      | .error e => .error e
      | .ok s => .ok (positive_data ++ s)

/-! ### `load_dataset` (run.py lines 61-76) -/

/-- Errors `load_dataset` can raise: the `assert len(paths) > 0` failure and
the `pandas.testing.assert_index_equal` failure on misaligned frames. -/
inductive LoadError where
  | assertionError
  | alignmentError
deriving DecidableEq

/-- A cached feature frame as read back by `pd.read_feather`: its row index
and its data columns (each column one list of values, all of the frame's
rows in index order). -/
structure Frame where
  index : List Nat
  cols : List (List ℚ)
deriving DecidableEq

/-- Transcription of `load_dataset(paths)` (run.py lines 61-76) in the
`index=None` case run.py actually uses: assert the list is non-empty, read
every frame, compare every frame's index against the first frame's index with
`pandas.testing.assert_index_equal`, and on success return the column-wise
concatenation (`pd.concat(feature_datasets, axis=1)`), which keeps the shared
row index. -/
def load_dataset : List Frame → Except LoadError Frame
  | [] => .error .assertionError
  | f :: fs =>
    if fs.all (fun g => g.index == f.index) then
      .ok ⟨f.index, ((f :: fs).map (fun g => g.cols)).flatten⟩
    else .error .alignmentError

/-! ### Trial records and `dump_json_log` (run.py lines 113-128, 161-208) -/

/-- The keys used by the per-trial result dictionaries and read back by
`dump_json_log`. -/
inductive TKey where
  | train_auc
  | valid_auc
  | valid_auc_original
  | best_iteration
  | time
  | train_time
  | prediction_time
  | feature_importance
deriving DecidableEq

/-- A value stored in a per-trial result dictionary. -/
inductive JVal where
  | num (q : ℚ)
  | nat (n : Nat)
  | timings (test valid : ℚ)
  | importance (imp : List (String × Nat))
deriving DecidableEq

/-- A per-trial result dictionary: an ordered association list of key/value
pairs, looked up like a Python dict. -/
def Record := List (TKey × JVal)

/-- Extract a numeric value, as `np.mean`/`np.std` need one. -/
def asNum : JVal → Option ℚ
  | .num q => some q
  | _ => none

/-- The dictionary appended to `train_results` in the disabled-bagging branch
(run.py lines 170-175).  Note the elapsed-time key is `'time'`. -/
def singleTrialRecord (train_auc valid_auc : ℚ) (best_iteration : Nat)
    (elapsed : ℚ) : Record :=
  [(.train_auc, .num train_auc),
   (.valid_auc, .num valid_auc),
   (.best_iteration, .nat best_iteration),
   (.time, .num elapsed)]

/-- The parameters of one bagging-branch trial dictionary. -/
structure BagParams where
  train_auc : ℚ
  valid_auc : ℚ
  valid_auc_original : ℚ
  best_iteration : Nat
  train_time : ℚ
  test_pred_time : ℚ
  valid_pred_time : ℚ
  importance : List (String × Nat)
deriving DecidableEq

/-- The dictionary appended to `train_results` in the bagging branch (run.py
lines 197-208).  Note the elapsed-time key here is `'train_time'`. -/
def baggingTrialRecord (p : BagParams) : Record :=
  [(.train_auc, .num p.train_auc),
   (.valid_auc, .num p.valid_auc),
   (.valid_auc_original, .num p.valid_auc_original),
   (.best_iteration, .nat p.best_iteration),
   (.train_time, .num p.train_time),
   (.prediction_time, .timings p.test_pred_time p.valid_pred_time),
   (.feature_importance, .importance p.importance)]

/-- The error `dump_json_log` can raise: a Python `KeyError` naming the
missing key. -/
inductive DumpError where
  | keyError (k : TKey)
deriving DecidableEq

/-- Evaluate the list comprehension `[result[k] for result in train_results]`:
left to right, raising `KeyError k` at the first record without the key. -/
def getNums (k : TKey) : List Record → Except DumpError (List ℚ)
  | [] => .ok []
  | r :: rs =>
    match (List.lookup k r).bind asNum with
    | some q =>
      match getNums k rs with
      | .ok qs => .ok (q :: qs)
      | .error e => .error e
    | none => .error (.keyError k)

/-- Model of `np.mean` on a list of floats: sum divided by length. -/
def npMean (xs : List ℚ) : ℚ := xs.sum / (xs.length : ℚ)

/-- Model of `np.std` on a list of floats with the default `ddof=0`: the square root
of the mean of the squared deviations from the mean (population formula). -/
noncomputable def npStd (xs : List ℚ) : ℝ :=
  Real.sqrt ((npMean (xs.map (fun x => (x - npMean xs) ^ 2)) : ℚ) : ℝ)

/-- The `results['training']` aggregate block built by `dump_json_log`. -/
structure Aggregates where
  average_train_auc : ℚ
  average_valid_auc : ℚ
  train_auc_std : ℝ
  valid_auc_std : ℝ
  average_train_time : ℚ

/-- Transcription of `dump_json_log(options, train_results)` (run.py lines
113-128): it evaluates, in source order, the comprehensions over
`result['train_auc']`, `result['valid_auc']` and `result['train_time']`,
raises `KeyError` at the first missing key, and otherwise assembles the means
and `np.std` (population) standard deviations. -/
noncomputable def dump_json_log (train_results : List Record) :
    Except DumpError Aggregates :=
  match getNums .train_auc train_results with
  | .error e => .error e
  | .ok train_aucs =>
    match getNums .valid_auc train_results with
    | .error e => .error e
    | .ok valid_aucs =>
      match getNums .train_time train_results with
      | .error e => .error e
      | .ok train_times =>
        .ok { average_train_auc := npMean train_aucs,
              average_valid_auc := npMean valid_aucs,
              train_auc_std := npStd train_aucs,
              valid_auc_std := npStd valid_aucs,
              average_train_time := npMean train_times }

/-! ### The bagging loop (run.py lines 176-209) -/

/-- The `result` dictionary returned by `model.train_and_predict`: the
per-iteration AUC histories `result['train']['auc']` and
`result['valid']['auc']`. -/
structure TrainMetrics where
  train_auc : List ℚ
  valid_auc : List ℚ
deriving DecidableEq

/-- The externally supplied model contract (`models[...]()` in run.py): a
training call returning a booster handle plus metric histories, the booster's
`best_iteration`, and its `predict`. -/
structure MLModel (β : Type) where
  train_and_predict : List Row → List Row → β × TrainMetrics
  best_iteration : β → Nat
  predict : β → List Row → List ℚ

/-- The data recorded for one bagging trial that the later stages consume:
the AUC entries of the trial dictionary and the trial's test predictions. -/
structure TrialData where
  train_auc : ℚ
  valid_auc : ℚ
  valid_auc_original : ℚ
  best_iteration : Nat
  test_prediction : List ℚ
deriving DecidableEq

/-- The body of one bagging iteration after the two down-sampling calls
succeed (run.py lines 181-208): train on the sampled data, predict on the
full test set, predict on the original (non-down-sampled) validation split,
and compute `valid_auc_original` from those original-validation predictions
via `roc_curve`/`auc` (modelled by the externally supplied `rocAuc`). -/
def mkTrialData (m : MLModel β) (rocAuc : List Bool → List ℚ → ℚ)
    (valid_data test_data st sv : List Row) : TrialData :=
  let bm := m.train_and_predict st sv
  { train_auc := bm.2.train_auc.getD (m.best_iteration bm.1) 0,
    valid_auc := bm.2.valid_auc.getD (m.best_iteration bm.1) 0,
    valid_auc_original :=
      rocAuc (valid_data.map (fun r => r.is_attributed)) (m.predict bm.1 valid_data),
    best_iteration := m.best_iteration bm.1,
    test_prediction := m.predict bm.1 test_data }

/-- One iteration of the bagging loop (run.py lines 177-208): down-sample the
train split and the valid split, both with `random_state=i`, then run the
trial body.  A sampling error aborts the iteration. -/
def trialStep (m : MLModel β) (rocAuc : List Bool → List ℚ → ℚ)
    (train_data valid_data test_data : List Row) (i : Nat) :
    Except PdError TrialData :=
  match negative_down_sampling train_data i with
  | .error e => .error e
  | .ok st =>
    match negative_down_sampling valid_data i with
    | .error e => .error e
    | .ok sv => .ok (mkTrialData m rocAuc valid_data test_data st sv)

/-- The whole bagging loop `for i in range(bagging_size)` (run.py line 177):
trials run in seed order 0, 1, ..., appending each trial's data; the first
error aborts the run. -/
def runTrials (m : MLModel β) (rocAuc : List Bool → List ℚ → ℚ)
    (train_data valid_data test_data : List Row) :
    Nat → Except PdError (List TrialData)
  | 0 => .ok []
  | b + 1 =>
    match runTrials m rocAuc train_data valid_data test_data b with
    | .error e => .error e
    | .ok ts =>
      match trialStep m rocAuc train_data valid_data test_data b with
      | .error e => .error e
      | .ok t => .ok (ts ++ [t])

/-! ### Prediction averaging (run.py line 211) -/

/-- Computation of `sum(predictions)` for a Python list of aligned numpy vectors: the
element-wise running sum starting from the first vector (numpy's `0 + v` is
`v`). -/
def vecSum : List (List ℚ) → List ℚ
  | [] => []
  | v :: vs => vs.foldl (fun acc w => List.zipWith (fun a b => a + b) acc w) v

/-- Transcription of `sum(predictions) / len(predictions)` (run.py line 211): the element-wise
arithmetic mean of the per-trial test probability vectors. -/
def averagePredictions (preds : List (List ℚ)) : List ℚ :=
  (vecSum preds).map (fun x => x / (preds.length : ℚ))

/-! ### Submission building (run.py lines 146-151 and 211-225) -/

/-- The filter applied at load time (run.py line 151):
`test_data[test_data.click_id.isin(ids_we_need)]`, where `ids_we_need` is the
set of `old_click_id`s of the identity map.  A test row is `(click_id,
prediction)`. -/
def filterToMapped (id_mapper : List (Nat × Nat)) (rows : List (Nat × ℚ)) :
    List (Nat × ℚ) :=
  rows.filter (fun r => (id_mapper.map (fun p => p.2)).contains r.1)

/-- The `old_click_to_prediction` dict (run.py lines 212-214), built by
iterating the test rows and assigning, so a later row with the same
`click_id` overwrites an earlier one: look up the last matching row. -/
def old_click_to_prediction (rows : List (Nat × ℚ)) (k : Nat) : Option ℚ :=
  ((rows.filter (fun r => r.1 == k)).getLast?).map (fun r => r.2)

/-- The submission row list before sorting (run.py lines 216-222): for each
`(new_click_id, old_click_id)` pair of the identity map in order, skip it if
`old_click_id` has no prediction, else emit `(new_click_id, prediction)`. -/
def submissionRows (id_mapper : List (Nat × Nat)) (rows : List (Nat × ℚ)) :
    List (Nat × ℚ) :=
  id_mapper.filterMap (fun p =>
    (old_click_to_prediction rows p.2).map (fun q => (p.1, q)))

/-- The serialized submission (run.py lines 223-225):
`submission.sort_values(by='click_id')`, i.e. the emitted rows sorted
ascending by new click id. -/
def submission (id_mapper : List (Nat × Nat)) (rows : List (Nat × ℚ)) :
    List (Nat × ℚ) :=
  List.insertionSort (fun a b => a.1 ≤ b.1) (submissionRows id_mapper rows)

/-! ### The I/O order of `main` (run.py lines 139-151, 223-226) -/

/-- The externally observable I/O steps of `main`, at the granularity the
error-handling spec talks about. -/
inductive Event where
  | readConfig
  | readIdMap
  | readDataset
  | train
  | writeSubmission
  | writeLog
deriving DecidableEq

/-- The two configuration-resolution failures. -/
inductive RunError where
  | unknownModel
  | unknownFeature (f : String)
deriving DecidableEq

/-- The configuration fields `main` consults before loading datasets. -/
structure Config where
  model_name : String
  features : List String
deriving DecidableEq

/-- The first feature name of the configuration missing from `feature_map`,
as found by the `for feature in config['features']: assert ...` loop in
`load_datasets` (run.py lines 85-86). -/
def firstUnknownFeature (fs : List String) : Option String :=
  fs.find? (fun f => (feature_map f).isNone)

/-- The I/O trace of `main` (run.py lines 139-226) together with the first
configuration error, at `Event` granularity.  Order as in the source: read
the config file; `assert config['model']['name'] in models` (line 144); read
the identity-map feather file (line 148); inside `load_datasets`, assert
every configured feature is in `feature_map` (line 86) before any dataset or
cache file is read; then read the datasets, train, and finally write the
submission and the metrics log. -/
def mainTrace (cfg : Config) : List Event × Option RunError :=
  if cfg.model_name ∈ models then
    match firstUnknownFeature cfg.features with
    | some f => ([.readConfig, .readIdMap], some (.unknownFeature f))
    | none =>
      ([.readConfig, .readIdMap, .readDataset, .train, .writeSubmission, .writeLog],
       none)
  else ([.readConfig], some .unknownModel)

/-- A concrete model instance for exercising the bagging loop: it trains
trivially and predicts `1/2` for every row. -/
def demoModel : MLModel Unit where
  train_and_predict := fun _ _ => ((), ⟨[9/10], [8/10]⟩)
  best_iteration := fun _ => 0
  predict := fun _ rows => rows.map (fun _ => 1/2)

/-- A concrete stand-in for sklearn's `roc_curve`/`auc` composition. -/
def demoRocAuc : List Bool → List ℚ → ℚ := fun _ _ => 3/4

/-- The concrete train split for the C9 witness. -/
def demoTrain : List Row := [⟨0, true⟩, ⟨1, false⟩]

/-- The concrete valid split for the C9 witness. -/
def demoValid : List Row := [⟨2, true⟩, ⟨3, false⟩]

/-- The concrete test split for the C9 witness. -/
def demoTest : List Row := [⟨4, false⟩]

instance : IsTotal (Nat × ℚ) (fun a b => a.1 ≤ b.1) :=
  ⟨fun a b => Nat.le_total a.1 b.1⟩

instance : IsTrans (Nat × ℚ) (fun a b => a.1 ≤ b.1) :=
  ⟨fun _ _ _ h h' => le_trans h h'⟩

/-! ### Helper lemmas -/

/-- Looking up any of the three keys `dump_json_log` reads in a list of
bagging-branch records succeeds and returns the corresponding field list. -/
theorem getNums_bagging (k : TKey) (v : BagParams → ℚ)
    (hv : ∀ p, (List.lookup k (baggingTrialRecord p)).bind asNum = some (v p)) :
    ∀ ps : List BagParams, getNums k (ps.map baggingTrialRecord) = .ok (ps.map v) := by
  intro ps
  induction ps with
  | nil => rfl
  | cons p ps ih => simp [getNums, hv p, ih]

/-! ### C2 — the two past-named ratio features are bound to the future
generator -/

/-- C2: In the feature registry, the entries named `past_click_ratio_10` and
`past_click_ratio_80` are bound to the future-direction ratio generator
(`generate_future_click_ratio`, with windows 600 and 4800 respectively)
rather than a past-direction one. -/
theorem past_ratio_entries_use_future_generator :
    feature_map "past_click_ratio_10" = some (.generate_future_click_ratio 600) ∧
    feature_map "past_click_ratio_80" = some (.generate_future_click_ratio 4800) ∧
    (feature_map "past_click_ratio_10").bind ctorDirection = some .future ∧
    (feature_map "past_click_ratio_80").bind ctorDirection = some .future :=
  ⟨rfl, rfl, rfl, rfl⟩

/-! ### C8 — eagerness of the configuration checks -/

/-- C8 counterexample: with a known model name and an unknown feature name,
`main` reads the identity-map file before the unknown feature is detected,
contradicting the claim that the failure happens before any dataset or
identity-map file is read. -/
theorem config_check_after_idmap_read :
    (mainTrace ⟨"lightgbm", ["bogus"]⟩).2 = some (.unknownFeature "bogus") ∧
    Event.readIdMap ∈ (mainTrace ⟨"lightgbm", ["bogus"]⟩).1 := by
  constructor <;> decide

/-- C8 (amended): an unknown model name aborts the run right after the
configuration is read, before the identity-map or any dataset file is read;
an unknown feature name aborts the run before any dataset file is read,
though after the identity-map file has been read; in either failure case no
output is written. -/
theorem config_errors_abort_before_dataset_io (cfg : Config) :
    (cfg.model_name ∉ models →
      mainTrace cfg = ([.readConfig], some .unknownModel)) ∧
    (∀ f, cfg.model_name ∈ models → firstUnknownFeature cfg.features = some f →
      mainTrace cfg = ([.readConfig, .readIdMap], some (.unknownFeature f))) ∧
    ((mainTrace cfg).2.isSome →
      Event.readDataset ∉ (mainTrace cfg).1 ∧
      Event.writeSubmission ∉ (mainTrace cfg).1 ∧
      Event.writeLog ∉ (mainTrace cfg).1) := by
  by_cases hm : cfg.model_name ∈ models
  · cases hf : firstUnknownFeature cfg.features with
    | none =>
      refine ⟨fun h => absurd hm h, fun f _ hsome => ?_, ?_⟩
      · cases hsome
      · simp [mainTrace, hm, hf]
    | some f =>
      refine ⟨fun h => absurd hm h, fun g _ hsome => ?_, fun _ => ?_⟩
      · cases hsome
        simp [mainTrace, hm, hf]
      · simp only [mainTrace, if_pos hm, hf]
        decide
  · refine ⟨fun _ => by simp [mainTrace, hm], fun f hmem _ => absurd hmem hm, fun _ => ?_⟩
    simp only [mainTrace, if_neg hm]
    decide

/-- C8 witness: both failure modes at concrete configurations. -/
theorem config_errors_abort_witness :
    mainTrace ⟨"xgboost", ["ip"]⟩ = ([.readConfig], some .unknownModel) ∧
    mainTrace ⟨"lightgbm", ["bogus"]⟩ =
      ([.readConfig, .readIdMap], some (.unknownFeature "bogus")) ∧
    (Event.readDataset ∉ (mainTrace ⟨"lightgbm", ["bogus"]⟩).1 ∧
      Event.writeSubmission ∉ (mainTrace ⟨"lightgbm", ["bogus"]⟩).1 ∧
      Event.writeLog ∉ (mainTrace ⟨"lightgbm", ["bogus"]⟩).1) :=
  ⟨(config_errors_abort_before_dataset_io ⟨"xgboost", ["ip"]⟩).1 (by decide),
   (config_errors_abort_before_dataset_io ⟨"lightgbm", ["bogus"]⟩).2.1 "bogus"
     (by decide) (by decide),
   (config_errors_abort_before_dataset_io ⟨"lightgbm", ["bogus"]⟩).2.2 (by decide)⟩

/-! ### C4 — row-alignment check in `load_dataset` -/

/-- C4: for every non-empty list of feature frames, `load_dataset` raises the
alignment error if any frame's row index differs from the first frame's row
index, and otherwise returns the column-wise concatenation of all frames,
whose row order equals the shared source row order. -/
theorem load_dataset_alignment_guard (f : Frame) (fs : List Frame) :
    ((∃ g ∈ fs, g.index ≠ f.index) →
      load_dataset (f :: fs) = .error .alignmentError) ∧
    ((∀ g ∈ fs, g.index = f.index) →
      ∃ out, load_dataset (f :: fs) = .ok out ∧
        out.index = f.index ∧
        out.cols = ((f :: fs).map (fun g => g.cols)).flatten) := by
  by_cases h : fs.all (fun g => g.index == f.index)
  · rw [List.all_eq_true] at h
    refine ⟨fun ⟨g, hg, hne⟩ => absurd (by simpa using h g hg) hne, fun _ => ?_⟩
    refine ⟨⟨f.index, ((f :: fs).map (fun g => g.cols)).flatten⟩, ?_, rfl, rfl⟩
    simp only [load_dataset]
    rw [if_pos (List.all_eq_true.mpr h)]
  · refine ⟨fun _ => ?_, fun hall => ?_⟩
    · simp only [load_dataset]
      rw [if_neg h]
    · exact absurd (List.all_eq_true.mpr fun g hg => by simpa using hall g hg) h

/-- C4 witness: an aligned pair of frames concatenates, a misaligned pair
raises. -/
theorem load_dataset_alignment_witness :
    (∃ out, load_dataset [⟨[0, 1], [[1, 2]]⟩, ⟨[0, 1], [[3, 4]]⟩] = .ok out ∧
      out.index = [0, 1] ∧
      out.cols = (([(⟨[0, 1], [[1, 2]]⟩ : Frame), ⟨[0, 1], [[3, 4]]⟩]).map
        (fun g => g.cols)).flatten) ∧
    load_dataset [⟨[0, 1], [[1, 2]]⟩, ⟨[1, 0], [[5, 6]]⟩] = .error .alignmentError :=
  ⟨(load_dataset_alignment_guard ⟨[0, 1], [[1, 2]]⟩ [⟨[0, 1], [[3, 4]]⟩]).2
      (fun g hg => by simpa using congrArg Frame.index (List.mem_singleton.mp hg)),
   (load_dataset_alignment_guard ⟨[0, 1], [[1, 2]]⟩ [⟨[1, 0], [[5, 6]]⟩]).1
      ⟨⟨[1, 0], [[5, 6]]⟩, List.mem_singleton.mpr rfl, by decide⟩⟩

/-! ### C3 — the `'time'` / `'train_time'` key mismatch -/

/-- C3: the disabled-bagging trial record stores its elapsed time under the
key `time` and has no `train_time` key, so `dump_json_log`, which reads
`result['train_time']` from every record, fails with a `KeyError` on such a
record; on lists of bagging-branch records (which use `train_time`) it
succeeds, so the aggregated metrics log is only produced in bagging mode. -/
theorem metrics_log_fails_without_bagging (a b : ℚ) (n : Nat) (t : ℚ) :
    List.lookup TKey.train_time (singleTrialRecord a b n t) = none ∧
    List.lookup TKey.time (singleTrialRecord a b n t) = some (.num t) ∧
    dump_json_log [singleTrialRecord a b n t] = .error (.keyError .train_time) ∧
    ∀ ps : List BagParams, ∃ agg,
      dump_json_log (ps.map baggingTrialRecord) = .ok agg := by
  refine ⟨rfl, rfl, rfl, fun ps => ?_⟩
  rw [dump_json_log,
    getNums_bagging .train_auc (fun p => p.train_auc) (fun p => rfl) ps,
    getNums_bagging .valid_auc (fun p => p.valid_auc) (fun p => rfl) ps,
    getNums_bagging .train_time (fun p => p.train_time) (fun p => rfl) ps]
  exact ⟨_, rfl⟩

/-! ### C10 — division by zero in `negative_down_sampling` -/

/-- Every row of a dataset is counted either positive or negative. -/
theorem posCount_add_negCount (data : List Row) :
    data.length = posCount data + negCount data := by
  rw [posCount, negCount]
  exact List.length_eq_length_filter_add (fun (r : Row) => r.is_attributed)

/-- With at least one negative row, the positive ratio is strictly below 1. -/
theorem posFrac_lt_one_of_neg (data : List Row) (hn : 0 < negCount data) :
    posFrac data < 1 := by
  have hlen : data.length = posCount data + negCount data := posCount_add_negCount data
  have hlt : posCount data < data.length := by omega
  have hpos : (0 : ℚ) < (data.length : ℚ) := by
    exact_mod_cast Nat.pos_of_ne_zero (by omega)
  rw [posFrac, div_lt_one hpos]
  exact_mod_cast hlt

/-- C10: `negative_down_sampling` divides by `1 - positive_ratio`, so on a
non-empty all-positive input (`positive_ratio = 1`) it raises a
division-by-zero error, while on any input with at least one negative row the
divisor `1 - positive_ratio` is non-zero. -/
theorem downsampling_division_by_zero :
    (∀ (data : List Row) (random_state : Nat), data ≠ [] →
      (∀ r ∈ data, r.is_attributed = true) →
      negative_down_sampling data random_state = .error .zeroDivision) ∧
    (∀ data : List Row, (∃ r ∈ data, r.is_attributed = false) →
      1 - posFrac data ≠ 0) := by
  constructor
  · intro data random_state hne hall
    have hlen : data.length ≠ 0 := fun h => hne (List.length_eq_zero.mp h)
    have hfilter : data.filter (fun r => r.is_attributed) = data :=
      List.filter_eq_self.mpr (fun r hr => hall r hr)
    have hfrac : posFrac data = 1 := by
      rw [posFrac, posCount, hfilter]
      exact div_self (by exact_mod_cast hlen)
    rw [negative_down_sampling, if_neg hlen, if_pos hfrac]
  · intro data ⟨r, hr, hneg⟩
    have hn : 0 < negCount data := by
      rw [negCount]
      have : r ∈ data.filter (fun r => !r.is_attributed) :=
        List.mem_filter.mpr ⟨hr, by simp [hneg]⟩
      exact List.length_pos.mpr (fun h => by simp [h] at this)
    have := posFrac_lt_one_of_neg data hn
    intro h
    rw [sub_eq_zero] at h
    exact absurd h.symm (ne_of_lt this)

/-- C10 witness: the all-positive singleton raises, and a dataset with one
negative row has a non-zero divisor. -/
theorem downsampling_division_by_zero_witness :
    negative_down_sampling [⟨0, true⟩] 5 = .error .zeroDivision ∧
    1 - posFrac [⟨0, true⟩, ⟨1, false⟩] ≠ 0 :=
  ⟨downsampling_division_by_zero.1 [⟨0, true⟩] 5 (by decide) (by decide),
   downsampling_division_by_zero.2 [⟨0, true⟩, ⟨1, false⟩]
     ⟨⟨1, false⟩, by decide, rfl⟩⟩

/-! ### C1 — what `negative_down_sampling` actually produces -/

/-- Evaluation rule for `negative_down_sampling` when none of its error
conditions fire. -/
theorem nds_eval (data : List Row) (random_state : Nat)
    (h0 : ¬ data.length = 0) (h1 : ¬ posFrac data = 1)
    (h2 : ¬ 1 < posFrac data / (1 - posFrac data)) :
    negative_down_sampling data random_state =
      .ok (data.filter (fun r => r.is_attributed) ++
        ((data.filter (fun r => !r.is_attributed)).rotate
            (random_state % ((data.filter (fun r => !r.is_attributed)).length + 1))).take
          (Int.toNat ⌊posFrac data / (1 - posFrac data) *
            ((data.filter (fun r => !r.is_attributed)).length : ℚ) + 1 / 2⌋)) := by
  rw [negative_down_sampling, if_neg h0]
  simp only
  rw [if_neg h1]
  simp only [sampleFrac]
  rw [if_neg h2]

/-- C1 counterexample: on a dataset with 1 positive and 3 negative rows
(positive fraction `p = 1/4`), the down-sampled output keeps 1 negative row,
not `positive_count * (1 - p) / p = 3`, and its positive fraction is `1/2`,
not `p`. -/
theorem downsampling_claim_counterexample :
    ∃ out,
      negative_down_sampling
        [⟨0, true⟩, ⟨1, false⟩, ⟨2, false⟩, ⟨3, false⟩] 0 = .ok out ∧
      ((negCount out : ℚ) ≠
        (posCount [⟨0, true⟩, ⟨1, false⟩, ⟨2, false⟩, ⟨3, false⟩] : ℚ) *
          ((1 - posFrac [⟨0, true⟩, ⟨1, false⟩, ⟨2, false⟩, ⟨3, false⟩]) /
            posFrac [⟨0, true⟩, ⟨1, false⟩, ⟨2, false⟩, ⟨3, false⟩])) ∧
      (posCount out : ℚ) / (out.length : ℚ) ≠
        posFrac [⟨0, true⟩, ⟨1, false⟩, ⟨2, false⟩, ⟨3, false⟩] := by
  have hfrac : posFrac [⟨0, true⟩, ⟨1, false⟩, ⟨2, false⟩, ⟨3, false⟩] = 1 / 4 := by
    rw [posFrac, show posCount [⟨0, true⟩, ⟨1, false⟩, ⟨2, false⟩, ⟨3, false⟩] = 1
      from rfl,
      show ([(⟨0, true⟩ : Row), ⟨1, false⟩, ⟨2, false⟩, ⟨3, false⟩]).length = 4
      from rfl]
    norm_num
  refine ⟨[⟨0, true⟩, ⟨1, false⟩], ?_, ?_, ?_⟩
  · rw [nds_eval _ 0 (by norm_num) (by rw [hfrac]; norm_num)
      (by rw [hfrac]; norm_num), hfrac]
    rw [show List.filter (fun r => !r.is_attributed)
        [(⟨0, true⟩ : Row), ⟨1, false⟩, ⟨2, false⟩, ⟨3, false⟩] =
        [⟨1, false⟩, ⟨2, false⟩, ⟨3, false⟩] from rfl]
    rw [show Int.toNat ⌊(1 / 4 : ℚ) / (1 - 1 / 4) *
        (([(⟨1, false⟩ : Row), ⟨2, false⟩, ⟨3, false⟩]).length : ℚ) + 1 / 2⌋ = 1 by
      norm_num]
    rfl
  · rw [hfrac, show negCount [⟨0, true⟩, ⟨1, false⟩] = 1 from rfl,
      show posCount [⟨0, true⟩, ⟨1, false⟩, ⟨2, false⟩, ⟨3, false⟩] = 1 from rfl]
    norm_num
  · rw [hfrac, show posCount [⟨0, true⟩, ⟨1, false⟩] = 1 from rfl,
      show ([(⟨0, true⟩ : Row), ⟨1, false⟩]).length = 2 from rfl]
    norm_num

/-- C1 (amended): for every labeled input with at least one positive and one
negative row and at most as many positives as negatives,
`negative_down_sampling` retains all positive rows and draws a seeded sample
of negative rows of size equal to the positive count (i.e. of size
`positive_count * p / (1 - p)` rows of the negative pool, which is
`positive_count`), so the positive fraction of the combined output is `1/2`,
not the input fraction `p` (unless `p = 1/2`). -/
theorem downsampling_output_balanced (data : List Row) (random_state : Nat)
    (hp : 0 < posCount data) (hn : 0 < negCount data)
    (hle : posCount data ≤ negCount data) :
    ∃ out, negative_down_sampling data random_state = .ok out ∧
      out.filter (fun r => r.is_attributed) = data.filter (fun r => r.is_attributed) ∧
      negCount out = posCount data ∧
      (∀ r ∈ out, r ∈ data) ∧
      (posCount out : ℚ) / (out.length : ℚ) = 1 / 2 := by
  have hlen := posCount_add_negCount data
  have h0 : ¬ data.length = 0 := by omega
  have hNq : ((negCount data : ℚ)) ≠ 0 := by
    exact_mod_cast Nat.pos_iff_ne_zero.mp hn
  have hlenq0 : ((data.length : ℚ)) ≠ 0 := by exact_mod_cast h0
  have h1 : ¬ posFrac data = 1 := ne_of_lt (posFrac_lt_one_of_neg data hn)
  have hsub : 1 - posFrac data = (negCount data : ℚ) / (data.length : ℚ) := by
    rw [posFrac, eq_div_iff hlenq0, sub_mul, one_mul,
      div_mul_cancel₀ _ hlenq0]
    have : ((data.length : ℚ)) = (posCount data : ℚ) + (negCount data : ℚ) := by
      exact_mod_cast hlen
    linarith
  have hdiv : posFrac data / (1 - posFrac data) =
      (posCount data : ℚ) / (negCount data : ℚ) := by
    rw [hsub, posFrac, div_div_eq_mul_div, div_mul_cancel₀ _ hlenq0]
  have h2 : ¬ 1 < posFrac data / (1 - posFrac data) := by
    rw [hdiv, not_lt, div_le_one (by exact_mod_cast hn)]
    exact_mod_cast hle
  have hNlen : (data.filter (fun r => !r.is_attributed)).length = negCount data := rfl
  have hcount : Int.toNat ⌊posFrac data / (1 - posFrac data) *
      ((data.filter (fun r => !r.is_attributed)).length : ℚ) + 1 / 2⌋ =
      posCount data := by
    rw [hdiv, hNlen, div_mul_cancel₀ _ hNq, add_comm, Int.floor_add_nat,
      show ⌊(1 / 2 : ℚ)⌋ = 0 by norm_num, zero_add, Int.toNat_natCast]
  rw [nds_eval data random_state h0 h1 h2, hcount]
  set sample := ((data.filter (fun r => !r.is_attributed)).rotate
    (random_state % ((data.filter (fun r => !r.is_attributed)).length + 1))).take
    (posCount data) with hsample
  have hsub_sample : ∀ r ∈ sample, r ∈ data.filter (fun r => !r.is_attributed) :=
    fun r hr => (List.mem_rotate).mp (List.take_subset _ _ hr)
  have hsample_neg : ∀ r ∈ sample, r.is_attributed = false := fun r hr => by
    have := (List.mem_filter.mp (hsub_sample r hr)).2
    simpa using this
  have hsample_len : sample.length = posCount data := by
    rw [hsample, List.length_take, List.length_rotate, hNlen]
    omega
  have hpos_self : (data.filter (fun r => r.is_attributed)).filter
      (fun r => r.is_attributed) = data.filter (fun r => r.is_attributed) :=
    List.filter_eq_self.mpr (fun a ha => (List.mem_filter.mp ha).2)
  have hsample_nil : sample.filter (fun r => r.is_attributed) = [] :=
    List.filter_eq_nil_iff.mpr (fun a ha => by rw [hsample_neg a ha]; simp)
  have hfilter_out : (data.filter (fun r => r.is_attributed) ++ sample).filter
      (fun r => r.is_attributed) = data.filter (fun r => r.is_attributed) := by
    rw [List.filter_append, hpos_self, hsample_nil, List.append_nil]
  have hpos_nil : (data.filter (fun r => r.is_attributed)).filter
      (fun r => !r.is_attributed) = [] :=
    List.filter_eq_nil_iff.mpr (fun a ha => by
      have := (List.mem_filter.mp ha).2
      simp only [this, Bool.not_true]
      exact fun h => by cases h)
  have hsample_self : sample.filter (fun r => !r.is_attributed) = sample :=
    List.filter_eq_self.mpr (fun a ha => by rw [hsample_neg a ha]; rfl)
  refine ⟨data.filter (fun r => r.is_attributed) ++ sample, rfl, hfilter_out, ?_, ?_, ?_⟩
  · rw [negCount, List.filter_append, hpos_nil, List.nil_append, hsample_self,
      hsample_len]
  · intro r hr
    rcases List.mem_append.mp hr with h | h
    · exact (List.mem_filter.mp h).1
    · exact (List.mem_filter.mp (hsub_sample r h)).1
  · have hpc : posCount (data.filter (fun r => r.is_attributed) ++ sample) =
        posCount data := by rw [posCount, hfilter_out]; rfl
    have hl : (data.filter (fun r => r.is_attributed) ++ sample).length =
        posCount data + posCount data := by
      rw [List.length_append, hsample_len]; rfl
    rw [hpc, hl]
    have hPq : (0 : ℚ) < (posCount data : ℚ) := by exact_mod_cast hp
    rw [show ((posCount data + posCount data : ℕ) : ℚ) = 2 * (posCount data : ℚ) by
      push_cast; ring]
    rw [div_eq_div_iff (by linarith) (by norm_num)]
    ring

/-- C1 witness for the amended statement: one positive and three negative
rows. -/
theorem downsampling_output_balanced_witness :
    ∃ out,
      negative_down_sampling
        [⟨0, true⟩, ⟨1, false⟩, ⟨2, false⟩, ⟨3, false⟩] 7 = .ok out ∧
      out.filter (fun r => r.is_attributed) =
        ([⟨0, true⟩, ⟨1, false⟩, ⟨2, false⟩, ⟨3, false⟩] : List Row).filter
          (fun r => r.is_attributed) ∧
      negCount out = posCount [⟨0, true⟩, ⟨1, false⟩, ⟨2, false⟩, ⟨3, false⟩] ∧
      (∀ r ∈ out, r ∈ ([⟨0, true⟩, ⟨1, false⟩, ⟨2, false⟩, ⟨3, false⟩] : List Row)) ∧
      (posCount out : ℚ) / (out.length : ℚ) = 1 / 2 :=
  downsampling_output_balanced [⟨0, true⟩, ⟨1, false⟩, ⟨2, false⟩, ⟨3, false⟩] 7
    (by decide) (by decide) (by decide)

/-! ### C6 — the final test score is the element-wise mean -/

/-- Entry `j` of the element-wise sum of two aligned vectors. -/
theorem zipAdd_getD (a b : List ℚ) (j : Nat) (ha : j < a.length)
    (hb : j < b.length) :
    (List.zipWith (fun x y => x + y) a b).getD j 0 = a.getD j 0 + b.getD j 0 := by
  induction a generalizing b j with
  | nil => cases ha
  | cons x a iha =>
    cases b with
    | nil => cases hb
    | cons y b =>
      cases j with
      | zero => rfl
      | succ j =>
        simp only [List.zipWith_cons_cons, List.getD_cons_succ]
        exact iha b j (Nat.lt_of_succ_lt_succ ha) (Nat.lt_of_succ_lt_succ hb)

/-- The running element-wise sum keeps the common length. -/
theorem foldl_zipAdd_length (n : Nat) :
    ∀ (vs : List (List ℚ)) (v : List ℚ), v.length = n → (∀ w ∈ vs, w.length = n) →
      (vs.foldl (fun acc w => List.zipWith (fun a b => a + b) acc w) v).length = n := by
  intro vs
  induction vs with
  | nil => intro v hv _; exact hv
  | cons w vs ih =>
    intro v hv hws
    simp only [List.foldl_cons]
    exact ih _ (by rw [List.length_zipWith, hv, hws w (List.mem_cons_self _ _),
      min_self]) (fun u hu => hws u (List.mem_cons_of_mem w hu))

/-- Entry `j` of the running element-wise sum of aligned vectors. -/
theorem foldl_zipAdd_getD (n j : Nat) (hj : j < n) :
    ∀ (vs : List (List ℚ)) (v : List ℚ), v.length = n → (∀ w ∈ vs, w.length = n) →
      (vs.foldl (fun acc w => List.zipWith (fun a b => a + b) acc w) v).getD j 0 =
        v.getD j 0 + (vs.map (fun w => w.getD j 0)).sum := by
  intro vs
  induction vs with
  | nil => intro v _ _; simp
  | cons w vs ih =>
    intro v hv hws
    have hwn : w.length = n := hws w (List.mem_cons_self _ _)
    have hzip : (List.zipWith (fun a b => a + b) v w).length = n := by
      rw [List.length_zipWith, hv, hwn, min_self]
    simp only [List.foldl_cons, List.map_cons, List.sum_cons]
    rw [ih _ hzip (fun u hu => hws u (List.mem_cons_of_mem w hu)),
      zipAdd_getD v w j (by omega) (by omega), add_assoc]

/-- C6: for every non-empty list of per-trial test probability vectors of
identical length, the final per-row test score `sum(predictions) /
len(predictions)` is the element-wise arithmetic mean: entry `j` equals the
sum of the trials' entries `j` divided by the number of trials. -/
theorem average_is_elementwise_mean (preds : List (List ℚ)) (n : Nat)
    (hne : preds ≠ []) (hlen : ∀ v ∈ preds, v.length = n) :
    (averagePredictions preds).length = n ∧
    ∀ j, j < n →
      (averagePredictions preds).getD j 0 =
        (preds.map (fun v => v.getD j 0)).sum / (preds.length : ℚ) := by
  cases preds with
  | nil => exact absurd rfl hne
  | cons v vs =>
    have hv : v.length = n := hlen v (List.mem_cons_self _ _)
    have hvs : ∀ w ∈ vs, w.length = n := fun w hw =>
      hlen w (List.mem_cons_of_mem v hw)
    have hsumlen : (vecSum (v :: vs)).length = n :=
      foldl_zipAdd_length n vs v hv hvs
    constructor
    · rw [averagePredictions, List.length_map, hsumlen]
    · intro j hj
      have hmap := @List.getD_map ℚ ℚ (vecSum (v :: vs)) 0 j
        (fun x => x / (((v :: vs).length : ℕ) : ℚ))
      rw [zero_div] at hmap
      rw [averagePredictions, hmap, vecSum, foldl_zipAdd_getD n j hj vs v hv hvs,
        List.map_cons, List.sum_cons]

/-- C6 witness: two one-row prediction vectors average entry-wise. -/
theorem average_is_elementwise_mean_witness :
    (averagePredictions [[1 / 2], [3 / 2]]).length = 1 ∧
    (averagePredictions [[1 / 2], [3 / 2]]).getD 0 0 =
      (([[1 / 2], [3 / 2]] : List (List ℚ)).map (fun v => v.getD 0 0)).sum /
        (([[1 / 2], [3 / 2]] : List (List ℚ)).length : ℚ) :=
  ⟨(average_is_elementwise_mean [[1 / 2], [3 / 2]] 1 (List.cons_ne_nil _ _)
      (by intro v hv; fin_cases hv <;> rfl)).1,
   (average_is_elementwise_mean [[1 / 2], [3 / 2]] 1 (List.cons_ne_nil _ _)
      (by intro v hv; fin_cases hv <;> rfl)).2 0 Nat.one_pos⟩

/-! ### C5 — submission rows, omissions and ordering -/

/-- C5: on the test rows previously filtered to the identity map's old-id
set, the submission is, up to the final ascending sort on the new click id,
exactly one row `(new_id, prediction(old_id))` per `(new_id, old_id)` pair of
the identity map whose `old_id` has a prediction; pairs whose `old_id` has no
prediction are skipped without error. -/
theorem submission_rows_complete_and_sorted (id_mapper : List (Nat × Nat))
    (rows : List (Nat × ℚ)) :
    List.Sorted (fun a b => a.1 ≤ b.1)
      (submission id_mapper (filterToMapped id_mapper rows)) ∧
    (submission id_mapper (filterToMapped id_mapper rows)).Perm
      (id_mapper.filterMap (fun p =>
        (old_click_to_prediction (filterToMapped id_mapper rows) p.2).map
          (fun q => (p.1, q)))) :=
  ⟨List.sorted_insertionSort _ _, List.perm_insertionSort _ _⟩

/-! ### C7 — aggregate metrics: means and population standard deviations -/

/-- The radicand of `np.std`, the population variance, is non-negative. -/
theorem npVariance_nonneg (xs : List ℚ) :
    0 ≤ npMean (xs.map (fun x => (x - npMean xs) ^ 2)) := by
  rw [npMean]
  apply div_nonneg
  · apply List.sum_nonneg
    intro x hx
    obtain ⟨y, _, rfl⟩ := List.mem_map.mp hx
    positivity
  · positivity

/-- C7: for every non-empty list of bagging trial records, the logged
aggregates are the arithmetic means of the per-trial train AUCs, valid AUCs
and training times, and the standard deviations are the population (ddof = 0)
standard deviations: non-negative numbers whose squares are the mean squared
deviations from the mean. -/
theorem metrics_aggregation_formulas (ps : List BagParams) (hne : ps ≠ []) :
    ∃ agg, dump_json_log (ps.map baggingTrialRecord) = .ok agg ∧
      agg.average_train_auc =
        (ps.map (fun p => p.train_auc)).sum / (ps.length : ℚ) ∧
      agg.average_valid_auc =
        (ps.map (fun p => p.valid_auc)).sum / (ps.length : ℚ) ∧
      agg.average_train_time =
        (ps.map (fun p => p.train_time)).sum / (ps.length : ℚ) ∧
      0 ≤ agg.train_auc_std ∧
      agg.train_auc_std ^ 2 =
        ((((ps.map (fun p => p.train_auc)).map (fun x =>
          (x - (ps.map (fun p => p.train_auc)).sum / (ps.length : ℚ)) ^ 2)).sum /
            (ps.length : ℚ) : ℚ) : ℝ) ∧
      0 ≤ agg.valid_auc_std ∧
      agg.valid_auc_std ^ 2 =
        ((((ps.map (fun p => p.valid_auc)).map (fun x =>
          (x - (ps.map (fun p => p.valid_auc)).sum / (ps.length : ℚ)) ^ 2)).sum /
            (ps.length : ℚ) : ℚ) : ℝ) := by
  have hlen : ∀ v : BagParams → ℚ, (ps.map v).length = ps.length :=
    fun v => List.length_map ps v
  have hstd : ∀ xs : List ℚ, npStd xs ^ 2 =
      ((npMean (xs.map (fun x => (x - npMean xs) ^ 2)) : ℚ) : ℝ) := by
    intro xs
    rw [npStd, sq, Real.mul_self_sqrt (by exact_mod_cast npVariance_nonneg xs)]
  refine ⟨_, by
    rw [dump_json_log,
      getNums_bagging .train_auc (fun p => p.train_auc) (fun p => rfl) ps,
      getNums_bagging .valid_auc (fun p => p.valid_auc) (fun p => rfl) ps,
      getNums_bagging .train_time (fun p => p.train_time) (fun p => rfl) ps],
    ?_, ?_, ?_, ?_, ?_, ?_, ?_⟩
  · simp [npMean, List.length_map]
  · simp [npMean, List.length_map]
  · simp [npMean, List.length_map]
  · exact Real.sqrt_nonneg _
  · rw [hstd, npMean, npMean]; simp [List.length_map]
  · exact Real.sqrt_nonneg _
  · rw [hstd, npMean, npMean]; simp [List.length_map]

/-- C7 witness: the spec's example, per-trial AUCs `0.7, 0.8, 0.9`. -/
theorem metrics_aggregation_witness :
    ∃ agg,
      dump_json_log (([⟨7/10, 7/10, 7/10, 1, 1, 1, 1, []⟩,
        ⟨8/10, 8/10, 8/10, 1, 1, 1, 1, []⟩,
        ⟨9/10, 9/10, 9/10, 1, 1, 1, 1, []⟩] : List BagParams).map
          baggingTrialRecord) = .ok agg ∧
      agg.average_train_auc =
        (([⟨7/10, 7/10, 7/10, 1, 1, 1, 1, []⟩, ⟨8/10, 8/10, 8/10, 1, 1, 1, 1, []⟩,
          ⟨9/10, 9/10, 9/10, 1, 1, 1, 1, []⟩] : List BagParams).map
            (fun p => p.train_auc)).sum / 3 ∧
      agg.average_valid_auc =
        (([⟨7/10, 7/10, 7/10, 1, 1, 1, 1, []⟩, ⟨8/10, 8/10, 8/10, 1, 1, 1, 1, []⟩,
          ⟨9/10, 9/10, 9/10, 1, 1, 1, 1, []⟩] : List BagParams).map
            (fun p => p.valid_auc)).sum / 3 ∧
      agg.average_train_time =
        (([⟨7/10, 7/10, 7/10, 1, 1, 1, 1, []⟩, ⟨8/10, 8/10, 8/10, 1, 1, 1, 1, []⟩,
          ⟨9/10, 9/10, 9/10, 1, 1, 1, 1, []⟩] : List BagParams).map
            (fun p => p.train_time)).sum / 3 ∧
      0 ≤ agg.train_auc_std ∧
      agg.train_auc_std ^ 2 =
        (((([⟨7/10, 7/10, 7/10, 1, 1, 1, 1, []⟩, ⟨8/10, 8/10, 8/10, 1, 1, 1, 1, []⟩,
          ⟨9/10, 9/10, 9/10, 1, 1, 1, 1, []⟩] : List BagParams).map
            (fun p => p.train_auc)).map (fun x =>
          (x - (([⟨7/10, 7/10, 7/10, 1, 1, 1, 1, []⟩,
            ⟨8/10, 8/10, 8/10, 1, 1, 1, 1, []⟩,
            ⟨9/10, 9/10, 9/10, 1, 1, 1, 1, []⟩] : List BagParams).map
              (fun p => p.train_auc)).sum / 3) ^ 2)).sum / 3 : ℚ) := by
  obtain ⟨agg, h1, h2, h3, h4, h5, h6, _⟩ :=
    metrics_aggregation_formulas
      [⟨7/10, 7/10, 7/10, 1, 1, 1, 1, []⟩, ⟨8/10, 8/10, 8/10, 1, 1, 1, 1, []⟩,
        ⟨9/10, 9/10, 9/10, 1, 1, 1, 1, []⟩] (List.cons_ne_nil _ _)
  exact ⟨agg, h1, h2, h3, h4, h5, h6⟩

/-! ### C9 — structure of one bagging trial -/

/-- C9: if the bagging loop with bagging size `B` finishes, it produced one
trial per seed, and trial `i` down-sampled both the train split and the valid
split with `random_state = i`, trained on exactly those samples, and built
its data with `mkTrialData` — i.e. its test predictions come from the full
test set and its `valid_auc_original` is computed from predictions on the
original, non-down-sampled validation split. -/
theorem bagging_trials_structure {β : Type} (m : MLModel β)
    (rocAuc : List Bool → List ℚ → ℚ) (train_data valid_data test_data : List Row)
    (B : Nat) (ts : List TrialData)
    (hok : runTrials m rocAuc train_data valid_data test_data B = .ok ts) :
    ts.length = B ∧
    ∀ i, i < B → ∃ st sv,
      negative_down_sampling train_data i = .ok st ∧
      negative_down_sampling valid_data i = .ok sv ∧
      ts[i]? = some (mkTrialData m rocAuc valid_data test_data st sv) := by
  induction B generalizing ts with
  | zero =>
    rw [runTrials] at hok
    cases hok
    exact ⟨rfl, fun i hi => absurd hi (Nat.not_lt_zero i)⟩
  | succ b ih =>
    rw [runTrials] at hok
    cases hrun : runTrials m rocAuc train_data valid_data test_data b with
    | error e => rw [hrun] at hok; cases hok
    | ok ts' =>
      rw [hrun] at hok
      cases hstep : trialStep m rocAuc train_data valid_data test_data b with
      | error e => rw [hstep] at hok; cases hok
      | ok t =>
        rw [hstep] at hok
        cases hok
        obtain ⟨hlen, hprop⟩ := ih ts' hrun
        refine ⟨by rw [List.length_append, hlen]; rfl, fun i hi => ?_⟩
        rcases Nat.lt_or_ge i b with hib | hib
        · obtain ⟨st, sv, h1, h2, h3⟩ := hprop i hib
          exact ⟨st, sv, h1, h2, by
            rw [List.getElem?_append_left (by rw [hlen]; exact hib)]; exact h3⟩
        · have hieq : i = b := by omega
          subst hieq
          rw [trialStep] at hstep
          cases h1 : negative_down_sampling train_data i with
          | error e => rw [h1] at hstep; cases hstep
          | ok st =>
            rw [h1] at hstep
            cases h2 : negative_down_sampling valid_data i with
            | error e => rw [h2] at hstep; cases hstep
            | ok sv =>
              rw [h2] at hstep
              cases hstep
              refine ⟨st, sv, rfl, rfl, ?_⟩
              rw [show i = ts'.length from hlen.symm ▸ rfl,
                List.getElem?_concat_length]


/-- Down-sampling the demo splits with seed 0 keeps both rows. -/
theorem demo_nds_train : negative_down_sampling demoTrain 0 = .ok demoTrain := by
  have hfrac : posFrac demoTrain = 1 / 2 := by
    rw [posFrac, show posCount demoTrain = 1 from rfl,
      show demoTrain.length = 2 from rfl]
    norm_num
  rw [nds_eval demoTrain 0 (by rw [show demoTrain.length = 2 from rfl]; norm_num)
    (by rw [hfrac]; norm_num) (by rw [hfrac]; norm_num), hfrac]
  rw [show List.filter (fun r => !r.is_attributed) demoTrain = [⟨1, false⟩] from rfl]
  rw [show Int.toNat ⌊(1 / 2 : ℚ) / (1 - 1 / 2) *
      (([(⟨1, false⟩ : Row)]).length : ℚ) + 1 / 2⌋ = 1 by norm_num]
  rfl

/-- Down-sampling the demo valid split with seed 0 keeps both rows. -/
theorem demo_nds_valid : negative_down_sampling demoValid 0 = .ok demoValid := by
  have hfrac : posFrac demoValid = 1 / 2 := by
    rw [posFrac, show posCount demoValid = 1 from rfl,
      show demoValid.length = 2 from rfl]
    norm_num
  rw [nds_eval demoValid 0 (by rw [show demoValid.length = 2 from rfl]; norm_num)
    (by rw [hfrac]; norm_num) (by rw [hfrac]; norm_num), hfrac]
  rw [show List.filter (fun r => !r.is_attributed) demoValid = [⟨3, false⟩] from rfl]
  rw [show Int.toNat ⌊(1 / 2 : ℚ) / (1 - 1 / 2) *
      (([(⟨3, false⟩ : Row)]).length : ℚ) + 1 / 2⌋ = 1 by norm_num]
  rfl

/-- The demo bagging loop of size 1 finishes with exactly one trial. -/
theorem demo_runTrials :
    runTrials demoModel demoRocAuc demoTrain demoValid demoTest 1 =
      .ok [mkTrialData demoModel demoRocAuc demoValid demoTest demoTrain demoValid] := by
  rw [runTrials, runTrials, trialStep, demo_nds_train, demo_nds_valid]
  rfl

/-- C9 witness: the size-1 demo loop, inspected at trial index 0. -/
theorem bagging_trials_structure_witness :
    ([mkTrialData demoModel demoRocAuc demoValid demoTest demoTrain demoValid]).length = 1 ∧
    ∃ st sv,
      negative_down_sampling demoTrain 0 = .ok st ∧
      negative_down_sampling demoValid 0 = .ok sv ∧
      ([mkTrialData demoModel demoRocAuc demoValid demoTest demoTrain demoValid])[0]? =
        some (mkTrialData demoModel demoRocAuc demoValid demoTest st sv) := by
  obtain ⟨h1, h2⟩ := bagging_trials_structure demoModel demoRocAuc demoTrain demoValid
    demoTest 1 [mkTrialData demoModel demoRocAuc demoValid demoTest demoTrain demoValid]
    demo_runTrials
  exact ⟨h1, h2 0 Nat.one_pos⟩

end AdTracking
